import Mathlib

/-!
Verification development for the Dreamcast `pl_mpeg` player glue
(`mpeg.c` / `mpeg.h`): a shallow embedding of the player state machine —
the cancellation evaluator, the audio fill adapter, the frame-upload
stride logic, the texture-dimension computation, and the blocking /
non-blocking playback schedulers — together with theorems checking the
specification's statements about them.

Modelling conventions:
* C `uint32_t` values are `Nat` reduced modulo `2 ^ 32` where overflow can
  occur; the audio cursor fields (`int` in C) are `Int`.
* The MPEG decoder (`pl_mpeg.h`, not part of this repository's sources;
  the spec treats it as an external collaborator) is an oracle: successive
  `plm_decode_video` results are a stream `Nat → Option plm_frame_t`, and
  `plm_decode_audio` results are a list of PCM chunks.
* Wall-clock time is modelled in integer nanoseconds: `timer_ns_gettime64`
  is a stream `Nat → Nat`, and the `double` comparison
  `playback_time >= frame->time` becomes `now - start_time ≥ frame.time`
  with the frame timestamp stored in nanoseconds.
* `snd_stream_start` / `snd_stream_stop` are tracked by a `streamRunning`
  flag; `snd_stream_poll` may asynchronously run the fill callback, so it
  is modelled as replacing the audio-cursor triple by an arbitrary
  environment-chosen value.
-/

/-- Byte values held in PCM buffers. -/
abbrev Byte := Nat

/-- KallistiOS constant `CONT_RESET_BUTTONS`:
`CONT_A | CONT_B | CONT_X | CONT_Y | CONT_START` = `4 + 2 + 1024 + 512 + 8`. -/
def CONT_RESET_BUTTONS : Nat := 1550

/-- Modelled from the spec: `PLM_AUDIO_SAMPLES_PER_FRAME` is defined in the
decoder header `pl_mpeg.h`, which is not among this repository's sources
(the spec lists the decoder as an external collaborator yielding
fixed-size audio chunks). The decoder's fixed chunk size is 1152 samples
per frame; older revisions of this repository hard-code `1152 * 2` bytes
for exactly this quantity. -/
def PLM_AUDIO_SAMPLES_PER_FRAME : Nat := 1152

/-- The `frame_bytes` local of `sound_callback`:
`PLM_AUDIO_SAMPLES_PER_FRAME * sizeof(short)`. -/
def frame_bytes : Nat := PLM_AUDIO_SAMPLES_PER_FRAME * 2

/-- Structure `mpeg_cancel_options_t` (mpeg.h): controller any-of / all-of masks and
keyboard any-of / all-of key lists.  The C `(array pointer, count)` pairs
are modelled as lists. -/
structure mpeg_cancel_options_t where
  pad_button_any : Nat
  pad_button_combo : Nat
  kbd_keys_any : List Nat
  kbd_keys_combo : List Nat
deriving Repr, DecidableEq

/-- One connected controller's state (`cont_state_t.buttons`). -/
structure cont_state_t where
  buttons : Nat
deriving Repr, DecidableEq

/-- One connected keyboard's state: `key_states[k].is_down`. -/
structure kbd_state_t where
  keyDown : Nat → Bool

/-- The input snapshot seen by one `mpeg_check_cancel` call: the connected
controllers and keyboards, in `MAPLE_FOREACH` iteration order. -/
structure InputSnapshot where
  controllers : List cont_state_t
  keyboards : List kbd_state_t

/-- Body of the controller `MAPLE_FOREACH` loop in `mpeg_check_cancel`
(mpeg.c lines 98–109): any-of mask check, then all-of mask check, then
the unconditional reset-combo check; `some r` models `return r`. -/
def checkCancelCont (opt : mpeg_cancel_options_t) (st : cont_state_t) : Option Nat :=
  if opt.pad_button_any ≠ 0 ∧ st.buttons &&& opt.pad_button_any ≠ 0 then
    some 1
  else if opt.pad_button_combo ≠ 0 ∧
      st.buttons &&& opt.pad_button_combo = opt.pad_button_combo then
    some 1
  else if st.buttons = CONT_RESET_BUTTONS then
    some 2
  else
    none

/-- Body of the keyboard `MAPLE_FOREACH` loop in `mpeg_check_cancel`
(mpeg.c lines 112–128): any listed key down returns 1; a non-empty all-of
list with every key down returns 1. -/
def checkCancelKbd (opt : mpeg_cancel_options_t) (kbd : kbd_state_t) : Option Nat :=
  if opt.kbd_keys_any.any kbd.keyDown then
    some 1
  else if opt.kbd_keys_combo ≠ [] ∧ opt.kbd_keys_combo.all kbd.keyDown then
    some 1
  else
    none

/-- Function `mpeg_check_cancel` (mpeg.c lines 94–131). A `NULL` options pointer is
`none` and returns 0 immediately; otherwise every connected controller is
checked, then every keyboard, the first `return` winning. -/
def mpeg_check_cancel (opt : Option mpeg_cancel_options_t) (inp : InputSnapshot) : Nat :=
  match opt with
  | none => 0
  | some o =>
    match inp.controllers.findSome? (checkCancelCont o) with
    | some r => r
    | none =>
      match inp.keyboards.findSome? (checkCancelKbd o) with
      | some r => r
      | none => 0

/-- Decoder type `plm_frame_t`: a decoded, timestamped picture.  The timestamp is kept
in integer nanoseconds (see the header comment). -/
structure plm_frame_t where
  time : Nat
  width : Nat
  height : Nat
deriving Repr, DecidableEq

/-- The fields of `mpeg_player_t` (mpeg.c lines 6–54) that the player
state machine reads or writes, plus a `streamRunning` flag tracking the
`snd_stream_start` / `snd_stream_stop` state of the audio output.
`hasDecoder` models `player->decoder != NULL`.  Fields that only feed the
hardware (texture pointer, polygon header, vertices, volume, sample rate,
stream handle) are not modelled. -/
structure Player where
  hasDecoder : Bool
  loop : Bool
  frame : Option plm_frame_t
  sample : Option (List Byte)
  snd_pcm_offset : Int
  snd_pcm_leftovers : Int
  start_time : Nat
  streamRunning : Bool
deriving Repr, DecidableEq

/-- KallistiOS `snd_stream_start` (as used at mpeg.c lines 287, 340, 377, 412): the
audio output begins running. -/
def snd_stream_start (p : Player) : Player :=
  { p with streamRunning := true }

/-- Function `sound_stream_reset` (mpeg.c lines 83–92): stop the audio output only
when the wall-clock anchor is nonzero, then clear the audio cursor pair.
The `if(!player) return;` null guard is outside this model; every caller
passes a live player. -/
def sound_stream_reset (p : Player) : Player :=
  let p1 := if p.start_time ≠ 0 then { p with streamRunning := false } else p
  { p1 with snd_pcm_leftovers := 0, snd_pcm_offset := 0 }

/-- Function `setup_audio` (mpeg.c lines 628–640), as far as modelled player state
goes: clears the audio cursor pair.  The stream-handle allocation and its
failure return touch no modelled state. -/
def setup_audio (p : Player) : Player :=
  { p with snd_pcm_leftovers := 0, snd_pcm_offset := 0 }

/-- Result of the `while(needed > 0)` fill loop of `sound_callback`:
the bytes copied from decoded chunks (`data`), the C `out` byte counter,
the final `player->sample` / cursor pair, the chunks the decoder has not
yet yielded, and the remaining `needed` at loop exit. -/
structure FillResult where
  data : List Byte
  out : Nat
  sample : Option (List Byte)
  snd_pcm_offset : Int
  snd_pcm_leftovers : Int
  chunks : List (List Byte)
  needed : Nat
deriving Repr, DecidableEq

/-- The `while(needed > 0)` loop of `sound_callback` (mpeg.c lines
596–616).  `chunks` is the stream of PCM payloads successive
`plm_decode_audio` calls will yield (`[]` meaning the next call returns
`NULL`); on that `NULL` the loop breaks with `player->sample = NULL`. -/
def sound_fill (sample : Option (List Byte)) (offset leftovers : Int)
    (chunks : List (List Byte)) (needed : Nat) : FillResult :=
  if needed = 0 then
    ⟨[], 0, sample, offset, leftovers, chunks, 0⟩
  else if _h : 0 < leftovers ∧ sample.isSome then
    let pcm := sample.getD []
    let chunk : Nat := min leftovers.toNat needed
    let r := sound_fill sample (offset + chunk) (leftovers - chunk) chunks (needed - chunk)
    ⟨(pcm.drop offset.toNat).take chunk ++ r.data, chunk + r.out,
      r.sample, r.snd_pcm_offset, r.snd_pcm_leftovers, r.chunks, r.needed⟩
  else
    match chunks with
    | [] => ⟨[], 0, none, offset, leftovers, [], needed⟩
    | c :: cs => sound_fill (some c) 0 (frame_bytes : Int) cs needed
termination_by (chunks.length, needed)
decreasing_by
  · apply Prod.Lex.right
    omega
  · apply Prod.Lex.left
    simp

/-- Function `sound_callback` (mpeg.c lines 589–626): run the fill loop from the
player's cursor state, zero-fill any shortfall, report `*size_out =
request_size`.  Returns the bytes written to `snd_buf`, the reported
size, the updated player, and the chunks still undecoded. -/
def sound_callback (p : Player) (chunks : List (List Byte)) (request_size : Nat) :
    List Byte × Nat × Player × List (List Byte) :=
  let r := sound_fill p.sample p.snd_pcm_offset p.snd_pcm_leftovers chunks request_size
  (r.data ++ List.replicate r.needed 0, request_size,
    { p with sample := r.sample, snd_pcm_offset := r.snd_pcm_offset,
             snd_pcm_leftovers := r.snd_pcm_leftovers },
    r.chunks)

/-- The decoded bytes still available to the audio adapter: the unread
tail of the current chunk, then every chunk the decoder has yet to
yield. -/
def audioSupply (sample : Option (List Byte)) (offset leftovers : Int)
    (chunks : List (List Byte)) : List Byte :=
  (match sample with
   | some pcm => (pcm.drop offset.toNat).take leftovers.toNat
   | none => []) ++ chunks.flatten

/-- Well-formedness of the audio cursor relative to the current chunk —
the reachable states of the adapter: both cursors non-negative, and a
positive leftover count refers to a full decoded chunk with
`offset + leftovers = frame_bytes`. -/
def audioInv (sample : Option (List Byte)) (offset leftovers : Int) : Prop :=
  0 ≤ offset ∧ 0 ≤ leftovers ∧
    (0 < leftovers →
      ∃ pcm, sample = some pcm ∧ pcm.length = frame_bytes ∧
        offset + leftovers = (frame_bytes : Int))

/-- Function `next_power_of_two` (mpeg.c lines 68–81) on `uint32_t`: decrement,
or-shift cascade, increment.  The increment is the one step where the
32-bit width can matter, hence the reduction modulo `2 ^ 32`. -/
def next_power_of_two (n : Nat) : Nat :=
  let n := n % 2 ^ 32
  if n = 0 then 1
  else
    let m := n - 1
    let m := m ||| m >>> 1
    let m := m ||| m >>> 2
    let m := m ||| m >>> 4
    let m := m ||| m >>> 8
    let m := m ||| m >>> 16
    (m + 1) % 2 ^ 32

/-- The texture-dimension and UV computations of `setup_graphics`
(mpeg.c lines 514–515 and 542–584): texture sides are
`next_power_of_two` of the picture sides; `u = width / texture_width`
and `v = height / texture_height`; the four quad vertices store
`(0,0), (u,0), (0,v), (u,v)`.  The C `float` division is exact for these
magnitudes (numerator below `2 ^ 24`, denominator a power of two), so it
is modelled in `ℚ`. -/
structure SetupGraphics where
  texture_width : Nat
  texture_height : Nat
  u0 : ℚ
  v0 : ℚ
  u1 : ℚ
  v1 : ℚ
  u2 : ℚ
  v2 : ℚ
  u3 : ℚ
  v3 : ℚ
deriving Repr, DecidableEq

/-- The part of `setup_graphics` that claims speak about: texture
dimensions and the quad's UV coordinates. -/
def setup_graphics_uv (width height : Nat) : SetupGraphics :=
  let tw := next_power_of_two width
  let th := next_power_of_two height
  let u : ℚ := (width : ℚ) / (tw : ℚ)
  let v : ℚ := (height : ℚ) / (th : ℚ)
  ⟨tw, th, 0, 0, u, 0, 0, v, u, v⟩

/-- One store-queue write event in `mpeg_upload_frame`: a 384-byte
macroblock copy (`sq_fast_cpy`) or one 32-byte padding flush
(`sq_flush`). -/
inductive UploadEvent where
  | copyBlock
  | flush
deriving Repr, DecidableEq

/-- Constant `384 / 32` (mpeg.c line 457): store-queue iterations per
macroblock. -/
def mb_sq_iters : Nat := 12

/-- One macroblock row of `mpeg_upload_frame`'s loop (mpeg.c lines
462–472): `video_blocks_w` macroblock copies, then
`pad_blocks_x * mb_sq_iters` padding flushes.  `pad_blocks_x` is a C
`int`; when it is negative the padding loop runs zero times, which
`Int.toNat` captures. -/
def uploadRow (video_blocks_w : Nat) (pad_blocks_x : Int) : List UploadEvent :=
  List.replicate video_blocks_w .copyBlock ++
    List.replicate (pad_blocks_x * (mb_sq_iters : Int)).toNat .flush

/-- Function `mpeg_upload_frame` (mpeg.c lines 428–475) reduced to its write-event
trace: `video_blocks_w = frame->width >> 4`,
`video_blocks_h = frame->height >> 4`,
`pvr_blocks_per_row = mpeg_texture_width >> 4`,
`pad_blocks_x = pvr_blocks_per_row - video_blocks_w`, and one
`uploadRow` per macroblock row. -/
def mpeg_upload_frame_rows (frame_width frame_height texture_width : Nat) :
    List (List UploadEvent) :=
  let video_blocks_w := frame_width >>> 4
  let video_blocks_h := frame_height >>> 4
  let pvr_blocks_per_row := texture_width >>> 4
  let pad_blocks_x : Int := (pvr_blocks_per_row : Int) - (video_blocks_w : Int)
  List.replicate video_blocks_h (uploadRow video_blocks_w pad_blocks_x)

/-- The environment of a playback run: what the decoder, the wall clock,
the input devices and the asynchronous audio device do at each call.
`video k` is the result of the `(k+1)`-st `plm_decode_video` call,
`timer k` the `(k+1)`-st `timer_ns_gettime64` reading, `inputs k` the
snapshot seen by the `(k+1)`-st `mpeg_check_cancel` poll, and `poll k`
the audio-cursor triple `(sample, offset, leftovers)` left behind by the
`(k+1)`-st `snd_stream_poll`, which may asynchronously run
`sound_callback` (the callback mutates only that triple). -/
structure Env where
  video : Nat → Option plm_frame_t
  timer : Nat → Nat
  inputs : Nat → InputSnapshot
  poll : Nat → Option (List Byte) × Int × Int

/-- A player together with its call counters into the environment's
streams. -/
structure Sched where
  p : Player
  v : Nat
  t : Nat
  i : Nat
  k : Nat
deriving Repr, DecidableEq

/-- One `plm_decode_video` call. -/
def decodeVideo (env : Env) (s : Sched) : Option plm_frame_t × Sched :=
  (env.video s.v, { s with v := s.v + 1 })

/-- One `timer_ns_gettime64` call. -/
def getTime (env : Env) (s : Sched) : Nat × Sched :=
  (env.timer s.t, { s with t := s.t + 1 })

/-- One `snd_stream_poll` call: the device may pull samples through
`sound_callback`, mutating only the audio-cursor triple. -/
def pollAudio (env : Env) (s : Sched) : Sched :=
  { s with k := s.k + 1,
           p := { s.p with sample := (env.poll s.k).1,
                           snd_pcm_offset := (env.poll s.k).2.1,
                           snd_pcm_leftovers := (env.poll s.k).2.2 } }

/-- Enumeration `mpeg_play_result_t` (mpeg.h). -/
inductive mpeg_play_result_t where
  | MPEG_PLAY_ERROR
  | MPEG_PLAY_NORMAL
  | MPEG_PLAY_CANCEL_INPUT
  | MPEG_PLAY_CANCEL_RESET
deriving Repr, DecidableEq

/-- The C integer value of a playback result: Error −1, Normal 0,
CancelInput 1, CancelReset 2. -/
def mpeg_play_result_t.toInt : mpeg_play_result_t → Int
  | .MPEG_PLAY_ERROR => -1
  | .MPEG_PLAY_NORMAL => 0
  | .MPEG_PLAY_CANCEL_INPUT => 1
  | .MPEG_PLAY_CANCEL_RESET => 2

/-- Enumeration `mpeg_decode_result_t`. -/
inductive mpeg_decode_result_t where
  | MPEG_DECODE_ERROR
  | MPEG_DECODE_EOF
  | MPEG_DECODE_IDLE
  | MPEG_DECODE_FRAME
deriving Repr, DecidableEq

/-- The C integer value of a decode-step result: Error −1, Eof −2,
Idle 0, Frame 1. -/
def mpeg_decode_result_t.toInt : mpeg_decode_result_t → Int
  | .MPEG_DECODE_ERROR => -1
  | .MPEG_DECODE_EOF => -2
  | .MPEG_DECODE_IDLE => 0
  | .MPEG_DECODE_FRAME => 1

/-- Function `mpeg_decode_step` (mpeg.c lines 370–426): one non-blocking step.
`player->frame->time` is read through `getD 0`; C dereferences the frame
pointer unconditionally here, so theorems about this branch supply a
present frame.  The `snd_stream_volume` call touches no modelled
state. -/
def mpeg_decode_step (env : Env) (s : Sched) : mpeg_decode_result_t × Sched :=
  if ¬ s.p.hasDecoder then (.MPEG_DECODE_ERROR, s)
  else if s.p.start_time = 0 then
    let s0 := { s with p := snd_stream_start (sound_stream_reset s.p) }
    let (f, s1) := decodeVideo env s0
    let s1 := { s1 with p := { s1.p with frame := f } }
    match f with
    | none => (.MPEG_DECODE_EOF, s1)
    | some _ =>
      let (now, s2) := getTime env s1
      let s3 := { s2 with p := { s2.p with start_time := now } }
      (.MPEG_DECODE_FRAME, pollAudio env s3)
  else
    let (now, s1) := getTime env s
    let s2 := pollAudio env s1
    if now - s2.p.start_time ≥ (s2.p.frame.map plm_frame_t.time).getD 0 then
      let (f, s3) := decodeVideo env s2
      let s3 := { s3 with p := { s3.p with frame := f } }
      match f with
      | some _ => (.MPEG_DECODE_FRAME, s3)
      | none =>
        if ¬ s3.p.loop then
          (.MPEG_DECODE_EOF, { s3 with p := sound_stream_reset s3.p })
        else
          let s4 := { s3 with p := snd_stream_start (sound_stream_reset s3.p) }
          let (f2, s5) := decodeVideo env s4
          let s5 := { s5 with p := { s5.p with frame := f2 } }
          match f2 with
          | none => (.MPEG_DECODE_EOF, { s5 with p := sound_stream_reset s5.p })
          | some _ =>
            let (now2, s6) := getTime env s5
            (.MPEG_DECODE_FRAME, { s6 with p := { s6.p with start_time := now2 } })
    else (.MPEG_DECODE_IDLE, s2)

/-- The `finish:` label of `mpeg_play_ex` (mpeg.c lines 354–359):
`sound_stream_reset`, then clear the wall-clock anchor. -/
def playFinish (r : mpeg_play_result_t) (s : Sched) : mpeg_play_result_t × Sched :=
  (r, { s with p := { sound_stream_reset s.p with start_time := 0 } })

/-- The `while(true)` loop of `mpeg_play_ex` (mpeg.c lines 298–352), with
explicit fuel (`none` = the loop did not exit within `fuel` iterations).
Per iteration: read the clock, evaluate cancellation (exit through
`playFinish` on a positive verdict), service the audio stream, and once
elapsed time reaches the current picture's timestamp render it and
decode the next picture, applying the loop-restart policy at end of
stream.  The render calls (`pvr_*`, `mpeg_upload_frame`,
`mpeg_draw_frame`) and `snd_stream_volume` touch no modelled state. -/
def playLoop (env : Env) (opt : Option mpeg_cancel_options_t) :
    Nat → Sched → Option (mpeg_play_result_t × Sched)
  | 0, _ => none
  | fuel + 1, s =>
    let (now, s1) := getTime env s
    let cancel := mpeg_check_cancel opt (env.inputs s1.i)
    let s1 := { s1 with i := s1.i + 1 }
    if cancel = 1 then some (playFinish .MPEG_PLAY_CANCEL_INPUT s1)
    else if cancel = 2 then some (playFinish .MPEG_PLAY_CANCEL_RESET s1)
    else
      let s2 := pollAudio env s1
      if now - s2.p.start_time ≥ (s2.p.frame.map plm_frame_t.time).getD 0 then
        let (f, s3) := decodeVideo env s2
        let s3 := { s3 with p := { s3.p with frame := f } }
        match f with
        | some _ => playLoop env opt fuel s3
        | none =>
          if ¬ s3.p.loop then some (playFinish .MPEG_PLAY_NORMAL s3)
          else
            let s4 := { s3 with p := snd_stream_start (sound_stream_reset s3.p) }
            let (f2, s5) := decodeVideo env s4
            let s5 := { s5 with p := { s5.p with frame := f2 } }
            match f2 with
            | none => some (playFinish .MPEG_PLAY_ERROR s5)
            | some _ =>
              let (now2, s6) := getTime env s5
              playLoop env opt fuel { s6 with p := { s6.p with start_time := now2 } }
      else playLoop env opt fuel s2

/-- Function `mpeg_play_ex` (mpeg.c lines 279–360).  `opt = none` models a `NULL`
options pointer; a `none` result means the playback loop did not exit
within `fuel` iterations. -/
def mpeg_play_ex (env : Env) (fuel : Nat) (s : Sched)
    (opt : Option mpeg_cancel_options_t) : Option (mpeg_play_result_t × Sched) :=
  if ¬ s.p.hasDecoder then some (.MPEG_PLAY_ERROR, s)
  else
    let s0 := { s with p := snd_stream_start (sound_stream_reset s.p) }
    let (f, s1) := decodeVideo env s0
    let s1 := { s1 with p := { s1.p with frame := f } }
    match f with
    | none => some (.MPEG_PLAY_ERROR, { s1 with p := sound_stream_reset s1.p })
    | some _ =>
      let (now, s2) := getTime env s1
      playLoop env opt fuel { s2 with p := { s2.p with start_time := now } }

/-- Function `mpeg_play` (mpeg.c lines 362–368): build a cancel spec whose only
populated field is `pad_button_any` (the C designated initializer zeroes
the rest) and delegate to `mpeg_play_ex`. -/
def mpeg_play (env : Env) (fuel : Nat) (s : Sched) (cancel_buttons : Nat) :
    Option (mpeg_play_result_t × Sched) :=
  mpeg_play_ex env fuel s (some ⟨cancel_buttons, 0, [], []⟩)

/-- Environment used for the C2 refutation: an exhausted decoder (every
`plm_decode_video` call returns `NULL`), a clock reading 100 ns. -/
def C2env : Env :=
  ⟨fun _ => none, fun _ => 100, fun _ => ⟨[], []⟩, fun _ => (none, 0, 0)⟩

/-- Player state used for the C2 refutation: loop enabled, playback in
progress (nonzero anchor), current picture due for replacement. -/
def C2sched : Sched :=
  ⟨⟨true, true, some ⟨0, 320, 240⟩, none, 0, 0, 1, true⟩, 0, 0, 0, 0⟩

/-- Environment used for the C4 refutation: the decoder yields no picture
at all. -/
def C4env : Env :=
  ⟨fun _ => none, fun _ => 100, fun _ => ⟨[], []⟩, fun _ => (none, 0, 0)⟩

/-- A freshly created player (zero anchor, stream not running) for the C4
refutation. -/
def C4sched : Sched :=
  ⟨⟨true, false, none, none, 0, 0, 0, false⟩, 0, 0, 0, 0⟩

/-- Environment for the C4 witness: one picture, then end of stream. -/
def C4wenv : Env :=
  ⟨fun k => if k = 0 then some ⟨0, 320, 240⟩ else none,
    fun _ => 7, fun _ => ⟨[], []⟩, fun _ => (none, 3, 4)⟩

/-- Initial state for the C4 witness: a fresh valid player with stale
cursor values. -/
def C4wsched : Sched :=
  ⟨⟨true, false, none, none, 5, 6, 0, false⟩, 0, 0, 0, 0⟩

/-- Exit state of the C4 witness run. -/
def C4wout : Sched :=
  ⟨⟨true, false, none, none, 0, 0, 0, false⟩, 2, 2, 1, 1⟩

set_option maxRecDepth 4000 in
/-- Exhaustive check of the bit trick over the decoder's dimension range,
split `4096 = 64 * 64` to keep the decidability recursion shallow. -/
theorem npot_key64 : ∀ a, a < 64 → ∀ b, b < 64 →
    (0 < 64 * a + b →
      (∃ k, k < 13 ∧ next_power_of_two (64 * a + b) = 2 ^ k) ∧
      64 * a + b ≤ next_power_of_two (64 * a + b) ∧
      next_power_of_two (64 * a + b) < 2 * (64 * a + b)) := by decide

/-- Value `next_power_of_two n` for `0 < n < 4096` (every dimension the MPEG-1
decoder can report: sequence-header dimensions are 12-bit) is a power of
two, at least `n`, and below `2 * n`. -/
theorem npot_key : ∀ n, n < 4096 → 0 < n →
    (∃ k, k < 13 ∧ next_power_of_two n = 2 ^ k) ∧
    n ≤ next_power_of_two n ∧ next_power_of_two n < 2 * n := by
  intro n hn hpos
  have h := npot_key64 (n / 64) (by omega) (n % 64) (by omega)
  have hsplit : 64 * (n / 64) + n % 64 = n := by omega
  rw [hsplit] at h
  exact h hpos

/-- Minimality: `next_power_of_two n` is below every power of two that is
at least `n`. -/
theorem npot_min (n : Nat) (h4 : n < 4096) (hpos : 0 < n) :
    ∀ k, n ≤ 2 ^ k → next_power_of_two n ≤ 2 ^ k := by
  obtain ⟨⟨j, hj13, hfj⟩, hle, hlt⟩ := npot_key n h4 hpos
  intro k hk
  rcases Nat.lt_or_ge k j with hkj | hkj
  · exfalso
    have hj1 : 1 ≤ j := by omega
    have h2 : 2 ^ j < 2 * n := hfj ▸ hlt
    have hhalf : 2 * 2 ^ (j - 1) = 2 ^ j := by
      rw [← pow_succ']
      congr 1
      omega
    have hn1 : 2 ^ (j - 1) < n := by omega
    have hkk : 2 ^ k ≤ 2 ^ (j - 1) := Nat.pow_le_pow_right (by norm_num) (by omega)
    omega
  · calc next_power_of_two n = 2 ^ j := hfj
      _ ≤ 2 ^ k := Nat.pow_le_pow_right (by norm_num) hkj

/-- Unfolding equation of `sound_fill`: the `needed = 0` loop exit. -/
theorem sound_fill_eq_zero (sample : Option (List Byte)) (offset leftovers : Int)
    (chunks : List (List Byte)) :
    sound_fill sample offset leftovers chunks 0 =
      ⟨[], 0, sample, offset, leftovers, chunks, 0⟩ := by
  rw [sound_fill.eq_def]
  simp

/-- Unfolding equation of `sound_fill`: one copy iteration (`leftovers > 0`
and a current chunk is present). -/
theorem sound_fill_eq_copy (sample : Option (List Byte)) (offset leftovers : Int)
    (chunks : List (List Byte)) (needed : Nat)
    (h1 : needed ≠ 0) (h2 : 0 < leftovers ∧ sample.isSome) :
    sound_fill sample offset leftovers chunks needed =
      ⟨((sample.getD []).drop offset.toNat).take (min leftovers.toNat needed) ++
          (sound_fill sample (offset + (min leftovers.toNat needed : Nat))
            (leftovers - (min leftovers.toNat needed : Nat)) chunks
            (needed - min leftovers.toNat needed)).data,
        min leftovers.toNat needed +
          (sound_fill sample (offset + (min leftovers.toNat needed : Nat))
            (leftovers - (min leftovers.toNat needed : Nat)) chunks
            (needed - min leftovers.toNat needed)).out,
        (sound_fill sample (offset + (min leftovers.toNat needed : Nat))
          (leftovers - (min leftovers.toNat needed : Nat)) chunks
          (needed - min leftovers.toNat needed)).sample,
        (sound_fill sample (offset + (min leftovers.toNat needed : Nat))
          (leftovers - (min leftovers.toNat needed : Nat)) chunks
          (needed - min leftovers.toNat needed)).snd_pcm_offset,
        (sound_fill sample (offset + (min leftovers.toNat needed : Nat))
          (leftovers - (min leftovers.toNat needed : Nat)) chunks
          (needed - min leftovers.toNat needed)).snd_pcm_leftovers,
        (sound_fill sample (offset + (min leftovers.toNat needed : Nat))
          (leftovers - (min leftovers.toNat needed : Nat)) chunks
          (needed - min leftovers.toNat needed)).chunks,
        (sound_fill sample (offset + (min leftovers.toNat needed : Nat))
          (leftovers - (min leftovers.toNat needed : Nat)) chunks
          (needed - min leftovers.toNat needed)).needed⟩ := by
  rw [sound_fill.eq_def]
  rw [if_neg h1, dif_pos h2]

/-- Unfolding equation of `sound_fill`: `plm_decode_audio` returns `NULL`
and the loop breaks with `player->sample = NULL`. -/
theorem sound_fill_eq_nil (sample : Option (List Byte)) (offset leftovers : Int)
    (needed : Nat) (h1 : needed ≠ 0) (h2 : ¬(0 < leftovers ∧ sample.isSome)) :
    sound_fill sample offset leftovers [] needed =
      ⟨[], 0, none, offset, leftovers, [], needed⟩ := by
  rw [sound_fill.eq_def]
  rw [if_neg h1, dif_neg h2]

/-- Unfolding equation of `sound_fill`: a fresh chunk is decoded and the
cursor is reset to `(0, frame_bytes)`. -/
theorem sound_fill_eq_cons (sample : Option (List Byte)) (offset leftovers : Int)
    (c : List Byte) (cs : List (List Byte)) (needed : Nat)
    (h1 : needed ≠ 0) (h2 : ¬(0 < leftovers ∧ sample.isSome)) :
    sound_fill sample offset leftovers (c :: cs) needed =
      sound_fill (some c) 0 (frame_bytes : Int) cs needed := by
  rw [sound_fill.eq_def]
  rw [if_neg h1, dif_neg h2]

/-- Master characterization of the fill loop on well-formed adapter
states: the copied bytes are exactly the next `needed` bytes of the
decoded supply, all `needed` bytes are accounted for between the copied
bytes and the remaining shortfall, the C `out` counter equals the number
of copied bytes, the cursor invariant is preserved, and the remaining
supply is the old supply minus the bytes taken. -/
theorem sound_fill_spec (sample : Option (List Byte)) (offset leftovers : Int)
    (chunks : List (List Byte)) (needed : Nat)
    (hinv : audioInv sample offset leftovers)
    (hwf : ∀ c ∈ chunks, c.length = frame_bytes) :
    (sound_fill sample offset leftovers chunks needed).data =
      (audioSupply sample offset leftovers chunks).take needed ∧
    (sound_fill sample offset leftovers chunks needed).data.length +
      (sound_fill sample offset leftovers chunks needed).needed = needed ∧
    (sound_fill sample offset leftovers chunks needed).out =
      (sound_fill sample offset leftovers chunks needed).data.length ∧
    audioInv (sound_fill sample offset leftovers chunks needed).sample
      (sound_fill sample offset leftovers chunks needed).snd_pcm_offset
      (sound_fill sample offset leftovers chunks needed).snd_pcm_leftovers ∧
    (∀ c ∈ (sound_fill sample offset leftovers chunks needed).chunks,
      c.length = frame_bytes) ∧
    audioSupply (sound_fill sample offset leftovers chunks needed).sample
      (sound_fill sample offset leftovers chunks needed).snd_pcm_offset
      (sound_fill sample offset leftovers chunks needed).snd_pcm_leftovers
      (sound_fill sample offset leftovers chunks needed).chunks =
      (audioSupply sample offset leftovers chunks).drop needed := by
  induction sample, offset, leftovers, chunks, needed using sound_fill.induct with
  | case1 sample offset leftovers chunks =>
    rw [sound_fill_eq_zero]
    exact ⟨by simp, by simp, by simp, hinv, hwf, by simp⟩
  | case2 sample offset leftovers chunks needed h1 h2 chunk ih =>
    obtain ⟨ho, hl, hps⟩ := hinv
    obtain ⟨pcm, hsample, hplen, hsum⟩ := hps h2.1
    subst hsample
    have hch : chunk = min leftovers.toNat needed := rfl
    have hchle : chunk ≤ leftovers.toNat := min_le_left _ _
    have hchle2 : chunk ≤ needed := min_le_right _ _
    have hinv2 : audioInv (some pcm) (offset + chunk) (leftovers - chunk) :=
      ⟨by omega, by omega, fun hpos => ⟨pcm, rfl, hplen, by omega⟩⟩
    obtain ⟨ihdata, ihlen, ihout, ihinv, ihwf, ihsupply⟩ := ih hinv2 hwf
    rw [sound_fill_eq_copy (some pcm) offset leftovers chunks needed h1 h2]
    simp only [Option.getD_some]
    rw [← hch]
    have hPlen : (pcm.drop offset.toNat).length = leftovers.toNat := by
      rw [List.length_drop]
      omega
    have htakelen : ((pcm.drop offset.toNat).take chunk).length = chunk := by
      rw [List.length_take]
      omega
    have htklen2 : ((pcm.drop offset.toNat).take chunk).length ≤ needed := by
      rw [htakelen]
      exact hchle2
    have hsupply_pre : audioSupply (some pcm) offset leftovers chunks =
        pcm.drop offset.toNat ++ chunks.flatten := by
      simp only [audioSupply]
      rw [List.take_of_length_le (le_of_eq hPlen)]
    have hsupply_rec :
        audioSupply (some pcm) (offset + (chunk : Int)) (leftovers - (chunk : Int)) chunks =
          (pcm.drop offset.toNat).drop chunk ++ chunks.flatten := by
      simp only [audioSupply]
      have hoffn : (offset + (chunk : Int)).toNat = offset.toNat + chunk := by omega
      rw [hoffn, ← List.drop_drop]
      rw [List.take_of_length_le (by rw [List.length_drop, List.length_drop]; omega)]
    refine ⟨?_, ?_, ?_, ihinv, ihwf, ?_⟩
    · rw [ihdata, hsupply_rec, hsupply_pre]
      conv_rhs => rw [← List.take_append_drop chunk (pcm.drop offset.toNat),
        List.append_assoc, List.take_append_eq_append_take, htakelen]
      rw [List.take_of_length_le htklen2]
    · rw [List.length_append, htakelen]
      omega
    · rw [List.length_append, htakelen]
      omega
    · rw [ihsupply, hsupply_rec, hsupply_pre]
      conv_rhs => rw [← List.take_append_drop chunk (pcm.drop offset.toNat),
        List.append_assoc, List.drop_append_eq_append_drop, htakelen]
      rw [List.drop_eq_nil_of_le htklen2, List.nil_append]
  | case3 sample offset leftovers needed h1 h2 =>
    obtain ⟨ho, hl, hps⟩ := hinv
    rw [sound_fill_eq_nil sample offset leftovers needed h1 h2]
    have hsup : audioSupply sample offset leftovers [] = [] := by
      cases sample with
      | none => simp [audioSupply]
      | some pcm =>
        have hnl : ¬ 0 < leftovers := fun hpos => h2 ⟨hpos, rfl⟩
        have hl0 : leftovers.toNat = 0 := by omega
        simp [audioSupply, hl0]
    refine ⟨by simp [hsup], by simp, by simp, ⟨ho, hl, fun hpos => ?_⟩, by simp, ?_⟩
    · obtain ⟨pcm, hsample, -, -⟩ := hps hpos
      exact absurd ⟨hpos, by simp [hsample]⟩ h2
    · rw [hsup]
      simp [audioSupply]
  | case4 sample offset leftovers needed h1 h2 c cs ih =>
    obtain ⟨ho, hl, hps⟩ := hinv
    have hclen : c.length = frame_bytes := hwf c (by simp)
    have hinv2 : audioInv (some c) 0 (frame_bytes : Int) :=
      ⟨le_refl 0, by positivity, fun _ => ⟨c, rfl, hclen, by omega⟩⟩
    have hwf2 : ∀ d ∈ cs, d.length = frame_bytes := fun d hd => hwf d (by simp [hd])
    obtain ⟨ihdata, ihlen, ihout, ihinv, ihwf, ihsupply⟩ := ih hinv2 hwf2
    have hfb : ((frame_bytes : Int)).toNat = frame_bytes := by omega
    have hsup_eq : audioSupply (some c) 0 (frame_bytes : Int) cs =
        audioSupply sample offset leftovers (c :: cs) := by
      cases sample with
      | none =>
        simp [audioSupply, hfb, List.take_of_length_le (le_of_eq hclen)]
      | some pcm =>
        have hnl : ¬ 0 < leftovers := fun hpos => h2 ⟨hpos, rfl⟩
        have hl0 : leftovers.toNat = 0 := by omega
        simp [audioSupply, hfb, hl0, List.take_of_length_le (le_of_eq hclen)]
    rw [sound_fill_eq_cons sample offset leftovers c cs needed h1 h2, ← hsup_eq]
    exact ⟨ihdata, ihlen, ihout, ihinv, ihwf, ihsupply⟩

/-- C5: For every request size and every well-formed adapter state
(reachable cursor state, fixed-size decoder chunks, any number of them —
including immediate exhaustion), `sound_callback` reports an output size
exactly equal to the request and writes exactly that many bytes into the
output buffer, in one synchronous pass. -/
theorem C5_callback_exactness (p : Player) (chunks : List (List Byte))
    (request_size : Nat)
    (hinv : audioInv p.sample p.snd_pcm_offset p.snd_pcm_leftovers)
    (hwf : ∀ c ∈ chunks, c.length = frame_bytes) :
    (sound_callback p chunks request_size).1.length = request_size ∧
    (sound_callback p chunks request_size).2.1 = request_size := by
  obtain ⟨-, hlen, -, -, -, -⟩ :=
    sound_fill_spec p.sample p.snd_pcm_offset p.snd_pcm_leftovers chunks
      request_size hinv hwf
  constructor
  · simp only [sound_callback, List.length_append, List.length_replicate]
    omega
  · rfl

/-- C5 witness: a concrete exhausted-decoder state still yields exactly
the requested 4 bytes. -/
theorem C5_witness :
    audioInv (none : Option (List Byte)) 0 0 ∧
    ((sound_callback ⟨true, false, none, none, 0, 0, 0, false⟩ [] 4).1.length = 4 ∧
      (sound_callback ⟨true, false, none, none, 0, 0, 0, false⟩ [] 4).2.1 = 4) :=
  ⟨⟨le_refl 0, le_refl 0, fun h => absurd h (by decide)⟩,
    C5_callback_exactness ⟨true, false, none, none, 0, 0, 0, false⟩ [] 4
      ⟨le_refl 0, le_refl 0, fun h => absurd h (by decide)⟩
      (fun c hc => absurd hc (List.not_mem_nil c))⟩

/-- C6: the bytes `sound_callback` writes are exactly the next
`request_size` bytes of the decoded supply followed by a zero-filled
shortfall — no byte beyond the decoded supply is ever stale — and the
remaining supply is the old supply minus the served prefix, so over any
sequence of requests exceeding the decoder's total supply every byte past
the supply is zero. -/
theorem C6_zero_fill (p : Player) (chunks : List (List Byte)) (request_size : Nat)
    (hinv : audioInv p.sample p.snd_pcm_offset p.snd_pcm_leftovers)
    (hwf : ∀ c ∈ chunks, c.length = frame_bytes) :
    (sound_callback p chunks request_size).1 =
      (audioSupply p.sample p.snd_pcm_offset p.snd_pcm_leftovers chunks).take
          request_size ++
        List.replicate (request_size -
          (audioSupply p.sample p.snd_pcm_offset p.snd_pcm_leftovers chunks).length)
          0 ∧
    audioSupply (sound_callback p chunks request_size).2.2.1.sample
        (sound_callback p chunks request_size).2.2.1.snd_pcm_offset
        (sound_callback p chunks request_size).2.2.1.snd_pcm_leftovers
        (sound_callback p chunks request_size).2.2.2 =
      (audioSupply p.sample p.snd_pcm_offset p.snd_pcm_leftovers chunks).drop
        request_size := by
  obtain ⟨hdata, hlen, -, -, -, hsupply⟩ :=
    sound_fill_spec p.sample p.snd_pcm_offset p.snd_pcm_leftovers chunks
      request_size hinv hwf
  constructor
  · simp only [sound_callback]
    rw [hdata]
    congr 1
    have hdl := hdata ▸ hlen
    rw [List.length_take] at hdl
    congr 1
    omega
  · exact hsupply

/-- C6 witness: an exhausted adapter; the whole 5-byte request is served
as zero fill. -/
theorem C6_witness :
    audioInv (none : Option (List Byte)) 0 0 ∧
    (sound_callback ⟨true, false, none, none, 0, 0, 0, true⟩ [] 5).1 =
      (audioSupply (none : Option (List Byte)) 0 0 []).take 5 ++
        List.replicate (5 - (audioSupply (none : Option (List Byte)) 0 0 []).length) 0 :=
  ⟨⟨le_refl 0, le_refl 0, fun h => absurd h (by decide)⟩,
    (C6_zero_fill ⟨true, false, none, none, 0, 0, 0, true⟩ [] 5
      ⟨le_refl 0, le_refl 0, fun h => absurd h (by decide)⟩
      (fun c hc => absurd hc (List.not_mem_nil c))).1⟩

/-- C10: the audio cursor pair is kept consistent by every operation that
touches it — `setup_audio` and `sound_stream_reset` zero it, and from any
well-formed state `sound_callback` returns with both cursors non-negative
and, whenever leftovers remain, `offset + leftovers = frame_bytes`, so the
leftover count never exceeds one decoded chunk. -/
theorem C10_cursor_invariant :
    (∀ p : Player, (setup_audio p).snd_pcm_offset = 0 ∧
      (setup_audio p).snd_pcm_leftovers = 0) ∧
    (∀ p : Player, (sound_stream_reset p).snd_pcm_offset = 0 ∧
      (sound_stream_reset p).snd_pcm_leftovers = 0) ∧
    (∀ (p : Player) (chunks : List (List Byte)) (request_size : Nat),
      audioInv p.sample p.snd_pcm_offset p.snd_pcm_leftovers →
      (∀ c ∈ chunks, c.length = frame_bytes) →
      0 ≤ (sound_callback p chunks request_size).2.2.1.snd_pcm_offset ∧
      0 ≤ (sound_callback p chunks request_size).2.2.1.snd_pcm_leftovers ∧
      (0 < (sound_callback p chunks request_size).2.2.1.snd_pcm_leftovers →
        (sound_callback p chunks request_size).2.2.1.snd_pcm_offset +
          (sound_callback p chunks request_size).2.2.1.snd_pcm_leftovers =
          (frame_bytes : Int))) := by
  refine ⟨fun p => ⟨rfl, rfl⟩, fun p => ⟨rfl, rfl⟩,
    fun p chunks request_size hinv hwf => ?_⟩
  obtain ⟨-, -, -, ⟨ho, hl, hs⟩, -, -⟩ :=
    sound_fill_spec p.sample p.snd_pcm_offset p.snd_pcm_leftovers chunks
      request_size hinv hwf
  refine ⟨ho, hl, fun hpos => ?_⟩
  obtain ⟨pcm, -, -, hsum⟩ := hs hpos
  exact hsum

/-- C10 witness: the setup / reset parts at a concrete player and the
callback part at a concrete well-formed state. -/
theorem C10_witness :
    ((setup_audio ⟨true, false, none, none, 5, 7, 0, false⟩).snd_pcm_offset = 0 ∧
      (setup_audio ⟨true, false, none, none, 5, 7, 0, false⟩).snd_pcm_leftovers = 0) ∧
    ((sound_stream_reset ⟨true, false, none, none, 5, 7, 9, true⟩).snd_pcm_offset = 0 ∧
      (sound_stream_reset ⟨true, false, none, none, 5, 7, 9, true⟩).snd_pcm_leftovers = 0) ∧
    audioInv (none : Option (List Byte)) 0 0 ∧
    (0 ≤ (sound_callback ⟨true, false, none, none, 0, 0, 0, false⟩ [] 3).2.2.1.snd_pcm_offset ∧
      0 ≤ (sound_callback ⟨true, false, none, none, 0, 0, 0, false⟩ [] 3).2.2.1.snd_pcm_leftovers ∧
      (0 < (sound_callback ⟨true, false, none, none, 0, 0, 0, false⟩ [] 3).2.2.1.snd_pcm_leftovers →
        (sound_callback ⟨true, false, none, none, 0, 0, 0, false⟩ [] 3).2.2.1.snd_pcm_offset +
          (sound_callback ⟨true, false, none, none, 0, 0, 0, false⟩ [] 3).2.2.1.snd_pcm_leftovers =
          (frame_bytes : Int))) :=
  ⟨C10_cursor_invariant.1 ⟨true, false, none, none, 5, 7, 0, false⟩,
    C10_cursor_invariant.2.1 ⟨true, false, none, none, 5, 7, 9, true⟩,
    ⟨le_refl 0, le_refl 0, fun h => absurd h (by decide)⟩,
    C10_cursor_invariant.2.2 ⟨true, false, none, none, 0, 0, 0, false⟩ [] 3
      ⟨le_refl 0, le_refl 0, fun h => absurd h (by decide)⟩
      (fun c hc => absurd hc (List.not_mem_nil c))⟩

/-- C1 counterexample: the reserved reset combination is held and the
spec's controller any-of mask fires on the very same snapshot, yet
`mpeg_check_cancel` returns the Input verdict 1, not the Reset verdict 2
the claim requires — the spec-mask checks precede the reset check. -/
theorem C1_counterexample :
    mpeg_check_cancel (some ⟨CONT_RESET_BUTTONS, 0, [], []⟩)
      ⟨[⟨CONT_RESET_BUTTONS⟩], []⟩ = 1 ∧
    mpeg_check_cancel (some ⟨CONT_RESET_BUTTONS, 0, [], []⟩)
      ⟨[⟨CONT_RESET_BUTTONS⟩], []⟩ ≠ 2 := by decide

/-- C1 (amended): when the pressed buttons equal the reserved reset
combination and the configured spec's controller any-of or all-of rule
fires on the same controller, `mpeg_check_cancel` yields the Input
verdict 1, never Reset: inside the controller loop the spec-mask checks
are evaluated before the reset-combo check. -/
theorem C1_input_priority (opt : mpeg_cancel_options_t) (st : cont_state_t)
    (kbs : List kbd_state_t)
    (hreset : st.buttons = CONT_RESET_BUTTONS)
    (hmatch : (opt.pad_button_any ≠ 0 ∧ st.buttons &&& opt.pad_button_any ≠ 0) ∨
      (opt.pad_button_combo ≠ 0 ∧
        st.buttons &&& opt.pad_button_combo = opt.pad_button_combo)) :
    mpeg_check_cancel (some opt) ⟨[st], kbs⟩ = 1 := by
  have h1 : checkCancelCont opt st = some 1 := by
    unfold checkCancelCont
    rcases hmatch with h | h
    · rw [if_pos h]
    · by_cases hany : opt.pad_button_any ≠ 0 ∧ st.buttons &&& opt.pad_button_any ≠ 0
      · rw [if_pos hany]
      · rw [if_neg hany, if_pos h]
  simp [mpeg_check_cancel, h1]

/-- C1 witness: instantiation of the amended priority statement at the
reset combination itself used as the any-of mask. -/
theorem C1_witness :
    (⟨CONT_RESET_BUTTONS⟩ : cont_state_t).buttons = CONT_RESET_BUTTONS ∧
    ((⟨CONT_RESET_BUTTONS, 0, [], []⟩ : mpeg_cancel_options_t).pad_button_any ≠ 0 ∧
      (⟨CONT_RESET_BUTTONS⟩ : cont_state_t).buttons &&&
        (⟨CONT_RESET_BUTTONS, 0, [], []⟩ : mpeg_cancel_options_t).pad_button_any ≠ 0) ∧
    mpeg_check_cancel (some ⟨CONT_RESET_BUTTONS, 0, [], []⟩)
      ⟨[⟨CONT_RESET_BUTTONS⟩], []⟩ = 1 :=
  ⟨rfl, ⟨by decide, by decide⟩,
    C1_input_priority ⟨CONT_RESET_BUTTONS, 0, [], []⟩ ⟨CONT_RESET_BUTTONS⟩ []
      rfl (Or.inl ⟨by decide, by decide⟩)⟩

/-- C3 counterexample: with a `NULL` spec and a controller holding
exactly the reserved reset combination, `mpeg_check_cancel` returns 0,
not the Reset verdict 2 the claim requires: `if(!opt) return 0;` runs
before any device is polled. -/
theorem C3_counterexample :
    mpeg_check_cancel none ⟨[⟨CONT_RESET_BUTTONS⟩], []⟩ = 0 ∧
    mpeg_check_cancel none ⟨[⟨CONT_RESET_BUTTONS⟩], []⟩ ≠ 2 := by decide

/-- C3 (amended): when the cancellation spec is absent (NULL options),
the evaluator returns None (0) for every input snapshot, including
snapshots where a controller holds the reserved reset combination; the
reset rule is evaluated only when a spec is present. -/
theorem C3_absent_spec_none (inp : InputSnapshot) :
    mpeg_check_cancel none inp = 0 := rfl

/-- C9: the single-mask legacy `mpeg_play` is extensionally identical to
`mpeg_play_ex` with a spec whose only populated field is the controller
any-of mask — same environment, same fuel, same player state, same
result. -/
theorem C9_play_delegates (env : Env) (fuel : Nat) (s : Sched) (M : Nat) :
    mpeg_play env fuel s M =
      mpeg_play_ex env fuel s
        (some { pad_button_any := M, pad_button_combo := 0,
                kbd_keys_any := [], kbd_keys_combo := [] }) := rfl

/-- C7: for every decoded picture whose width in 16-pixel macroblocks is
at most the destination stride in macroblocks, every upload row consists
of exactly the source-width macroblock copies followed by the padding
flushes for the remaining stride — `destinationBlocks − sourceBlocks`
padded macroblocks (at `mb_sq_iters` flushes each), a count that is never
negative — so every row accounts for exactly the destination stride in
macroblocks. -/
theorem C7_upload_stride (frame_width frame_height texture_width : Nat)
    (h : frame_width >>> 4 ≤ texture_width >>> 4) :
    0 ≤ (texture_width >>> 4 : Int) - (frame_width >>> 4 : Int) ∧
    ∀ row ∈ mpeg_upload_frame_rows frame_width frame_height texture_width,
      row = List.replicate (frame_width >>> 4) UploadEvent.copyBlock ++
        List.replicate ((texture_width >>> 4 - frame_width >>> 4) * mb_sq_iters)
          UploadEvent.flush ∧
      row.count UploadEvent.copyBlock = frame_width >>> 4 ∧
      row.count UploadEvent.flush =
        (texture_width >>> 4 - frame_width >>> 4) * mb_sq_iters ∧
      row.count UploadEvent.copyBlock + row.count UploadEvent.flush / mb_sq_iters =
        texture_width >>> 4 := by
  constructor
  · omega
  intro row hrow
  have hrow2 := List.eq_of_mem_replicate hrow
  have hrow3 : row = List.replicate (frame_width >>> 4) UploadEvent.copyBlock ++
      List.replicate ((texture_width >>> 4 - frame_width >>> 4) * mb_sq_iters)
        UploadEvent.flush := by
    rw [hrow2]
    unfold uploadRow
    congr 2
    simp only [mb_sq_iters]
    omega
  refine ⟨hrow3, ?_, ?_, ?_⟩
  · rw [hrow3]
    simp [List.count_append, List.count_replicate]
  · rw [hrow3]
    simp [List.count_append, List.count_replicate]
  · rw [hrow3]
    simp [List.count_append, List.count_replicate, mb_sq_iters]
    omega

/-- C7 witness: a 320×240 picture against a 512-wide texture — 20 copies
and 12 padded macroblocks per row. -/
theorem C7_witness :
    320 >>> 4 ≤ 512 >>> 4 ∧
    (0 ≤ (512 >>> 4 : Int) - (320 >>> 4 : Int) ∧
      ∀ row ∈ mpeg_upload_frame_rows 320 240 512,
        row = List.replicate (320 >>> 4) UploadEvent.copyBlock ++
          List.replicate ((512 >>> 4 - 320 >>> 4) * mb_sq_iters)
            UploadEvent.flush ∧
        row.count UploadEvent.copyBlock = 320 >>> 4 ∧
        row.count UploadEvent.flush = (512 >>> 4 - 320 >>> 4) * mb_sq_iters ∧
        row.count UploadEvent.copyBlock + row.count UploadEvent.flush / mb_sq_iters =
          512 >>> 4) :=
  ⟨by decide, C7_upload_stride 320 240 512 (by decide)⟩

/-- C8: for every picture dimension pair the decoder can report
(MPEG-1 sequence-header dimensions are 12-bit, so below 4096), the
texture sides computed by `next_power_of_two` are the smallest powers of
two at least the corresponding picture side, and the UV scales stored in
the quad vertices are exactly `width / texture_width` and
`height / texture_height` (vertex 1 carries `(u, 0)`, vertex 2 `(0, v)`,
vertex 3 `(u, v)`). -/
theorem C8_texture_pow2_uv (w h : Nat) (hw0 : 0 < w) (hw : w < 4096)
    (hh0 : 0 < h) (hh : h < 4096) :
    (∃ k, (setup_graphics_uv w h).texture_width = 2 ^ k) ∧
    w ≤ (setup_graphics_uv w h).texture_width ∧
    (∀ k, w ≤ 2 ^ k → (setup_graphics_uv w h).texture_width ≤ 2 ^ k) ∧
    (∃ k, (setup_graphics_uv w h).texture_height = 2 ^ k) ∧
    h ≤ (setup_graphics_uv w h).texture_height ∧
    (∀ k, h ≤ 2 ^ k → (setup_graphics_uv w h).texture_height ≤ 2 ^ k) ∧
    (setup_graphics_uv w h).u1 =
      (w : ℚ) / ((setup_graphics_uv w h).texture_width : ℚ) ∧
    (setup_graphics_uv w h).v1 = 0 ∧
    (setup_graphics_uv w h).u2 = 0 ∧
    (setup_graphics_uv w h).v2 =
      (h : ℚ) / ((setup_graphics_uv w h).texture_height : ℚ) ∧
    (setup_graphics_uv w h).u3 =
      (w : ℚ) / ((setup_graphics_uv w h).texture_width : ℚ) ∧
    (setup_graphics_uv w h).v3 =
      (h : ℚ) / ((setup_graphics_uv w h).texture_height : ℚ) ∧
    (setup_graphics_uv w h).u0 = 0 ∧
    (setup_graphics_uv w h).v0 = 0 := by
  obtain ⟨⟨kw, -, hkw⟩, hlew, -⟩ := npot_key w hw hw0
  obtain ⟨⟨kh, -, hkh⟩, hleh, -⟩ := npot_key h hh hh0
  refine ⟨⟨kw, hkw⟩, hlew, npot_min w hw hw0, ⟨kh, hkh⟩, hleh, npot_min h hh hh0,
    rfl, rfl, rfl, rfl, rfl, rfl, rfl, rfl⟩

/-- C8 witness: the recommended 320×240 video — 512×256 texture and the
corresponding exact UV scales. -/
theorem C8_witness :
    0 < 320 ∧ (320 : Nat) < 4096 ∧ 0 < 240 ∧ (240 : Nat) < 4096 ∧
    ((∃ k, (setup_graphics_uv 320 240).texture_width = 2 ^ k) ∧
      320 ≤ (setup_graphics_uv 320 240).texture_width ∧
      (∀ k, 320 ≤ 2 ^ k → (setup_graphics_uv 320 240).texture_width ≤ 2 ^ k) ∧
      (∃ k, (setup_graphics_uv 320 240).texture_height = 2 ^ k) ∧
      240 ≤ (setup_graphics_uv 320 240).texture_height ∧
      (∀ k, 240 ≤ 2 ^ k → (setup_graphics_uv 320 240).texture_height ≤ 2 ^ k) ∧
      (setup_graphics_uv 320 240).u1 =
        (320 : ℚ) / ((setup_graphics_uv 320 240).texture_width : ℚ) ∧
      (setup_graphics_uv 320 240).v1 = 0 ∧
      (setup_graphics_uv 320 240).u2 = 0 ∧
      (setup_graphics_uv 320 240).v2 =
        (240 : ℚ) / ((setup_graphics_uv 320 240).texture_height : ℚ) ∧
      (setup_graphics_uv 320 240).u3 =
        (320 : ℚ) / ((setup_graphics_uv 320 240).texture_width : ℚ) ∧
      (setup_graphics_uv 320 240).v3 =
        (240 : ℚ) / ((setup_graphics_uv 320 240).texture_height : ℚ) ∧
      (setup_graphics_uv 320 240).u0 = 0 ∧
      (setup_graphics_uv 320 240).v0 = 0) :=
  ⟨by decide, by decide, by decide, by decide,
    C8_texture_pow2_uv 320 240 (by decide) (by decide) (by decide) (by decide)⟩

/-- C2 counterexample: with loop enabled and a loop restart that itself
fails to decode a first picture, `mpeg_decode_step` returns Eof (−2),
not the Error (−1) the claim requires. -/
theorem C2_counterexample :
    (mpeg_decode_step C2env C2sched).1 = .MPEG_DECODE_EOF ∧
    (mpeg_decode_step C2env C2sched).1 ≠ .MPEG_DECODE_ERROR := by decide

/-- C2 (amended): when `mpeg_decode_step` reaches end of stream with loop
enabled and the loop restart itself fails to decode a first picture, it
resets the sound stream and returns Eof — unlike `mpeg_play_ex`, whose
identical situation is a terminal Error. -/
theorem C2_loop_restart_eof (env : Env) (s : Sched) (fr : plm_frame_t)
    (hdec : s.p.hasDecoder = true)
    (hloop : s.p.loop = true)
    (hst : s.p.start_time ≠ 0)
    (hfr : s.p.frame = some fr)
    (htime : env.timer s.t - s.p.start_time ≥ fr.time)
    (hv1 : env.video s.v = none)
    (hv2 : env.video (s.v + 1) = none) :
    (mpeg_decode_step env s).1 = .MPEG_DECODE_EOF := by
  simp [mpeg_decode_step, getTime, decodeVideo, pollAudio, hdec, hst, hfr,
    hv1, hv2, hloop, htime]

/-- C2 witness: instantiation of the amended Eof statement at the
concrete refuting environment. -/
theorem C2_witness :
    C2sched.p.hasDecoder = true ∧ C2sched.p.loop = true ∧
    C2sched.p.start_time ≠ 0 ∧ C2sched.p.frame = some ⟨0, 320, 240⟩ ∧
    C2env.timer C2sched.t - C2sched.p.start_time ≥ (0 : Nat) ∧
    C2env.video C2sched.v = none ∧ C2env.video (C2sched.v + 1) = none ∧
    (mpeg_decode_step C2env C2sched).1 = .MPEG_DECODE_EOF :=
  ⟨rfl, rfl, by decide, rfl, by decide, rfl, rfl,
    C2_loop_restart_eof C2env C2sched ⟨0, 320, 240⟩ rfl rfl (by decide) rfl
      (by decide) rfl rfl⟩

/-- Helper: the wall-clock anchor is untouched by a sound-stream reset. -/
theorem sound_stream_reset_start_time (p : Player) :
    (sound_stream_reset p).start_time = p.start_time := by
  simp only [sound_stream_reset]
  split <;> rfl

/-- Helper: resetting the sound stream while the anchor is nonzero stops
the audio output. -/
theorem sound_stream_reset_streamRunning_of_ne (p : Player)
    (h : p.start_time ≠ 0) :
    (sound_stream_reset p).streamRunning = false := by
  simp only [sound_stream_reset]
  rw [if_pos h]

/-- Helper: whatever state reaches the finish label with a nonzero anchor
leaves the player with cleared cursors and a stopped stream. -/
theorem playFinish_state (R r : mpeg_play_result_t) (sX s' : Sched)
    (h : playFinish R sX = (r, s')) (hst : sX.p.start_time ≠ 0) :
    s'.p.snd_pcm_leftovers = 0 ∧ s'.p.snd_pcm_offset = 0 ∧
    s'.p.streamRunning = false := by
  have hs : s' = { sX with p := { sound_stream_reset sX.p with start_time := 0 } } := by
    have h2 := congrArg Prod.snd h
    simpa [playFinish] using h2.symm
  subst hs
  exact ⟨rfl, rfl, sound_stream_reset_streamRunning_of_ne sX.p hst⟩

/-- Helper: once the playback loop runs with a nonzero wall-clock anchor
and the clock never reads zero, every exit through the finish label
leaves the leftover state cleared and the audio output stopped. -/
theorem playLoop_exit (env : Env) (opt : Option mpeg_cancel_options_t) :
    ∀ (fuel : Nat) (s : Sched) (r : mpeg_play_result_t) (s' : Sched),
      s.p.start_time ≠ 0 → (∀ k, env.timer k ≠ 0) →
      playLoop env opt fuel s = some (r, s') →
      s'.p.snd_pcm_leftovers = 0 ∧ s'.p.snd_pcm_offset = 0 ∧
      s'.p.streamRunning = false := by
  intro fuel
  induction fuel with
  | zero =>
    intro s r s' _ _ hrun
    exact absurd hrun (by simp [playLoop])
  | succ fuel ih =>
    intro s r s' hst htimer hrun
    rw [playLoop] at hrun
    simp only [getTime, decodeVideo, pollAudio] at hrun
    split at hrun
    · -- cancel = 1
      rw [Option.some.injEq] at hrun
      exact playFinish_state _ _ _ _ hrun hst
    split at hrun
    · -- cancel = 2
      rw [Option.some.injEq] at hrun
      exact playFinish_state _ _ _ _ hrun hst
    split at hrun
    · -- time to render
      split at hrun
      · -- next frame decoded: continue
        exact ih _ _ _ (by exact hst) htimer hrun
      · -- end of stream
        split at hrun
        · -- not looping: Normal exit
          rw [Option.some.injEq] at hrun
          exact playFinish_state _ _ _ _ hrun hst
        · -- looping: restart
          split at hrun
          · -- restart failed: Error exit
            rw [Option.some.injEq] at hrun
            refine playFinish_state _ _ _ _ hrun ?_
            simpa [snd_stream_start, sound_stream_reset_start_time] using hst
          · -- restart succeeded: continue with fresh anchor
            exact ih _ _ _ (htimer _) htimer hrun
    · -- idle: continue
      exact ih _ _ _ (by exact hst) htimer hrun

/-- C4 (amended): on every exit of a run of the playback loop of
mpeg_play_ex on a valid player (with a clock that never reads zero), the
leftover audio state is cleared; the audio output is moreover stopped on
every exit where the very first decode produced a picture.  (On the
Error exit taken when the very first decode yields no picture, the
freshly started audio output can stay running: see the
counterexample.) -/
theorem C4_exit_audio_state (env : Env) (fuel : Nat) (s : Sched)
    (opt : Option mpeg_cancel_options_t) (r : mpeg_play_result_t) (s' : Sched)
    (hdec : s.p.hasDecoder = true)
    (htimer : ∀ k, env.timer k ≠ 0)
    (hrun : mpeg_play_ex env fuel s opt = some (r, s')) :
    s'.p.snd_pcm_leftovers = 0 ∧ s'.p.snd_pcm_offset = 0 ∧
    (env.video s.v ≠ none → s'.p.streamRunning = false) := by
  simp only [mpeg_play_ex, decodeVideo, getTime, hdec, not_true_eq_false,
    if_false, Bool.false_eq_true] at hrun
  split at hrun
  · -- the very first decode yielded no picture: Error exit
    rename_i hv
    rw [Option.some.injEq] at hrun
    have hs : s' = (Prod.mk r s').2 := rfl
    rw [← hrun] at hs
    subst hs
    exact ⟨rfl, rfl, fun hne => absurd hv hne⟩
  · -- first picture decoded: the loop ran and exited
    rename_i fr hv
    have h := playLoop_exit env opt fuel _ r s' (by exact htimer _) htimer hrun
    exact ⟨h.1, h.2.1, fun _ => h.2.2⟩

/-- C4 counterexample: when the very first decode yields no picture,
`mpeg_play_ex` takes the Error exit with the just-started audio output
still running — `sound_stream_reset` skips `snd_stream_stop` because the
wall-clock anchor is still zero — contradicting the claim that the audio
output is stopped on every exit path. -/
theorem C4_counterexample :
    (mpeg_play_ex C4env 1 C4sched none).map
        (fun rs => (rs.1, rs.2.p.streamRunning)) =
      some (.MPEG_PLAY_ERROR, true) := by decide

/-- C4 witness: a normal one-picture playback exits with cleared cursors
and a stopped stream. -/
theorem C4_witness :
    C4wsched.p.hasDecoder = true ∧ (∀ k, C4wenv.timer k ≠ 0) ∧
    mpeg_play_ex C4wenv 1 C4wsched none = some (.MPEG_PLAY_NORMAL, C4wout) ∧
    (C4wout.p.snd_pcm_leftovers = 0 ∧ C4wout.p.snd_pcm_offset = 0 ∧
      (C4wenv.video C4wsched.v ≠ none → C4wout.p.streamRunning = false)) :=
  ⟨rfl, fun _ => (by decide : (7 : Nat) ≠ 0), by decide,
    C4_exit_audio_state C4wenv 1 C4wsched none .MPEG_PLAY_NORMAL C4wout rfl
      (fun _ => (by decide : (7 : Nat) ≠ 0)) (by decide)⟩
